import Mathlib

/-!
Shallow embedding of the `iati-crates` workspace (crates `iati-types`,
`iati-xml`, `iati-fx`, `iati-transform`) and proofs about its behaviour.

Modelling conventions:
* Rust `String`/`&str` values are Lean `String`s; `str::trim` is `String.trim`
  (both trim surrounding whitespace; only ASCII whitespace is exercised here).
* `chrono::NaiveDate` is a record of year/month/day with a calendar validity
  check; `rust_decimal::Decimal` is a mantissa/scale pair with exact
  arithmetic (the 96-bit mantissa and 28-digit scale limits are modelled at
  the parsing boundary, where the crates can hit them).
* Machine integers (`u16` transaction codes) are `Nat` with explicit range
  checks where the source checks them.
* Fallible Rust functions returning `Result` become `Except`.
* The quick-xml tokenizer is the external collaborator of the spec: parsers
  consume a list of structural `XmlEvent`s (already unescaped / text-trimmed,
  which is what `trim_text(true)` delivers), and the segmenter's
  `Writer`/re-`Reader` round trip is the identity on the buffered event list.
-/

deriving instance DecidableEq for Except

/-- Calendar date, modelling `chrono::NaiveDate` as used by the crates. -/
structure NaiveDate where
  year : Int
  month : Nat
  day : Nat
deriving DecidableEq, Repr

/-- Proleptic-Gregorian leap-year test. -/
def isLeapYear (y : Int) : Bool :=
  (y % 4 == 0 && y % 100 != 0) || (y % 400 == 0)

/-- Days in a month of a given year. -/
def daysInMonth (y : Int) (m : Nat) : Nat :=
  if m == 2 then (if isLeapYear y then 29 else 28)
  else if m == 4 || m == 6 || m == 9 || m == 11 then 30
  else 31

/-- Validity of a calendar date (what `chrono` enforces on construction). -/
def NaiveDate.isValid (d : NaiveDate) : Bool :=
  1 ≤ d.month && d.month ≤ 12 && 1 ≤ d.day && d.day ≤ daysInMonth d.year d.month

/-- Error from `chrono` date parsing (`chrono::ParseError`); the crates only
propagate it, so a single constructor suffices. -/
inductive DateError
  | invalid
deriving DecidableEq, Repr

/-- Digits of a char list read as a number, `none` if empty or non-digit. -/
def digitsToNat? : List Char → Option Nat
  | [] => none
  | cs =>
    cs.foldl (fun acc c =>
      match acc with
      | none => none
      | some n => if c.isDigit then some (n * 10 + (c.toNat - 48)) else none)
      (some 0)

/-- Parsing with `chrono`'s `%Y-%m-%d` format as `parse_from_str` uses it:
an optionally negative year, month and day separated by dashes, validated as a
calendar date; anything else is a parse error. -/
def NaiveDate.parse_from_str (s : String) : Except DateError NaiveDate :=
  let (neg, cs) :=
    match s.data with
    | '-' :: r => (true, r)
    | r => (false, r)
  match cs.splitOn '-' with
  | [ys, ms, ds] =>
    match digitsToNat? ys, digitsToNat? ms, digitsToNat? ds with
    | some y, some m, some d =>
      let date : NaiveDate := ⟨if neg then -(y : Int) else (y : Int), m, d⟩
      if date.isValid then .ok date else .error .invalid
    | _, _, _ => .error .invalid
  | _ => .error .invalid

/-- Arbitrary-precision decimal, modelling `rust_decimal::Decimal` as an
integer mantissa scaled by a power of ten. Arithmetic is exact; the 96-bit
mantissa and maximum scale of 28 are enforced where the crates parse text. -/
structure Decimal where
  mantissa : Int
  scale : Nat
deriving DecidableEq, Repr

namespace Decimal

/-- Constant `Decimal::ONE`. -/
def ONE : Decimal := ⟨1, 0⟩

/-- Exact product (`a * b` in `rust_decimal`, which is exact whenever the
result fits, as every product reached by these crates' proofs does). -/
def mul (a b : Decimal) : Decimal :=
  ⟨a.mantissa * b.mantissa, a.scale + b.scale⟩

/-- Exact sum after rescaling to the larger scale (`a + b`). -/
def add (a b : Decimal) : Decimal :=
  let s := max a.scale b.scale
  ⟨a.mantissa * (10 : Int) ^ (s - a.scale) + b.mantissa * (10 : Int) ^ (s - b.scale), s⟩

/-- Numeric value of a decimal. -/
def toRat (a : Decimal) : ℚ := (a.mantissa : ℚ) / (10 : ℚ) ^ a.scale

/-- Rational value re-encoded as a decimal: the smallest sufficient scale up
to 28, rounding to nearest at the 28-digit boundary (the boundary case is not
reached by any theorem below). -/
def ofRat (q : ℚ) : Decimal :=
  match (List.range 29).find? (fun s => (q * (10 : ℚ) ^ s).den == 1) with
  | some s => ⟨(q * (10 : ℚ) ^ s).num, s⟩
  | none => ⟨round (q * (10 : ℚ) ^ 28), 28⟩

/-- Division (`a / b` in `rust_decimal`): exact rational quotient re-encoded
at up to 28 fractional digits. -/
def div (a b : Decimal) : Decimal := ofRat (a.toRat / b.toRat)

end Decimal

/-- Error from `rust_decimal` text parsing (`rust_decimal::Error`); the
crates only propagate its message. -/
inductive DecError
  | errorString (msg : String)
deriving DecidableEq, Repr

/-- Running state of the decimal text scanner. -/
structure DecScan where
  acc : Nat
  digits : Nat
  sawPoint : Bool
  scale : Nat
deriving Repr

/-- Parsing with `rust_decimal`'s `Decimal::from_str`: optional sign, digits
with at most one decimal point, underscores ignored; empty or alien input is
an error; more than 28 fractional digits round to nearest away from zero and
a mantissa beyond 96 bits is an overflow error. -/
def Decimal.fromStr (s : String) : Except DecError Decimal :=
  match s.data with
  | [] => .error (.errorString "Invalid decimal: empty")
  | cs₀ =>
    let (neg, cs) :=
      match cs₀ with
      | '-' :: r => (true, r)
      | '+' :: r => (false, r)
      | r => (false, r)
    match (cs.foldlM (fun (st : DecScan) c =>
        if c.isDigit then
          .ok { st with
                acc := st.acc * 10 + (c.toNat - 48),
                digits := st.digits + 1,
                scale := if st.sawPoint then st.scale + 1 else st.scale }
        else if c = '.' then
          if st.sawPoint then
            .error (.errorString "Invalid decimal: two decimal points")
          else .ok { st with sawPoint := true }
        else if c = '_' then .ok st
        else .error (DecError.errorString "Invalid decimal: unknown character"))
      (⟨0, 0, false, 0⟩ : DecScan) : Except DecError DecScan) with
    | .error e => .error e
    | .ok st =>
      if st.digits = 0 then .error (.errorString "Invalid decimal: no digits")
      else
        let (acc, scale) :=
          if st.scale > 28 then
            let p := (10 : Nat) ^ (st.scale - 28)
            let q := st.acc / p
            (if 2 * (st.acc % p) ≥ p then q + 1 else q, 28)
          else (st.acc, st.scale)
        if acc ≥ 2 ^ 96 then
          .error (.errorString "Invalid decimal: overflow from too many digits")
        else .ok ⟨if neg then -(acc : Int) else (acc : Int), scale⟩

/-- Whitespace trimming of both ends (`str::trim`), on the char list so that
it evaluates by kernel reduction; the inputs exercised here contain only
ASCII whitespace, where the two coincide. -/
def rustTrim (s : String) : String :=
  ⟨((s.data.dropWhile Char.isWhitespace).reverse.dropWhile Char.isWhitespace).reverse⟩

/-- ASCII upper-casing of a string (`str::to_ascii_uppercase`): each char
mapped through the ASCII-only `Char.toUpper`. -/
def String.toAsciiUppercase (s : String) : String := ⟨s.data.map Char.toUpper⟩

/-- ISO 4217 currency code stored as a wrapped string
(`iati_types::money::CurrencyCode`, a tuple struct around `String`). -/
structure CurrencyCode where
  code : String
deriving DecidableEq, Repr

/-- Construction through `From<&str>`/`From<String>`: the stored string is the
ASCII upper-casing of the input. The bare tuple constructor `CurrencyCode(..)`
is `CurrencyCode.mk` and performs no normalization. -/
def CurrencyCode.fromString (s : String) : CurrencyCode := ⟨s.toAsciiUppercase⟩

/-- Monetary amount with optional currency and value-date
(`iati_types::money::Money`). -/
structure Money where
  amount : Decimal
  currency : Option CurrencyCode
  value_date : Option NaiveDate
deriving DecidableEq, Repr

/-- Constructor `Money::new`. -/
def Money.new (amount : Decimal) : Money := ⟨amount, none, none⟩

/-- Lightweight organisation reference (`iati_types::OrgRef`). -/
structure OrgRef where
  ref_id : Option String
  name : Option String
deriving DecidableEq, Repr

/-- IATI transaction type (`iati_types::tx::TxType`): thirteen named kinds
plus an open unknown-code variant. Codes are `u16` in the source, here `Nat`
values below `2 ^ 16`. -/
inductive TxType
  | IncomingFunds
  | OutgoingCommitment
  | Disbursement
  | Expenditure
  | InterestPayment
  | LoanRepayment
  | Reimbursement
  | PurchaseOfEquity
  | SaleOfEquity
  | CreditGuarantee
  | IncomingCommitment
  | OutgoingPledge
  | IncomingPledge
  | Unknown (c : Nat)
deriving DecidableEq, Repr

namespace TxType

/-- Method `TxType::code`. -/
def code : TxType → Nat
  | IncomingFunds => 1
  | OutgoingCommitment => 2
  | Disbursement => 3
  | Expenditure => 4
  | InterestPayment => 5
  | LoanRepayment => 6
  | Reimbursement => 7
  | PurchaseOfEquity => 8
  | SaleOfEquity => 9
  | CreditGuarantee => 10
  | IncomingCommitment => 11
  | OutgoingPledge => 12
  | IncomingPledge => 13
  | Unknown c => c

/-- Conversion `impl From<u16> for TxType`. -/
def fromCode (c : Nat) : TxType :=
  match c with
  | 1 => IncomingFunds
  | 2 => OutgoingCommitment
  | 3 => Disbursement
  | 4 => Expenditure
  | 5 => InterestPayment
  | 6 => LoanRepayment
  | 7 => Reimbursement
  | 8 => PurchaseOfEquity
  | 9 => SaleOfEquity
  | 10 => CreditGuarantee
  | 11 => IncomingCommitment
  | 12 => OutgoingPledge
  | 13 => IncomingPledge
  | c => Unknown c

/-- Rendering `impl Display for TxType`: the decimal text of the code. -/
def displayStr (t : TxType) : String := toString t.code

end TxType

/-- Error from `str::parse::<u16>` (`std::num::ParseIntError` kinds the
crates can hit). -/
inductive IntError
  | empty
  | invalidDigit
  | posOverflow
deriving DecidableEq, Repr

/-- Parsing with `str::parse::<u16>`: optional leading plus sign, decimal
digits, value below `2 ^ 16`; empty input, alien characters and overflow are
distinct errors, raised at the position the scan reaches them. -/
def parseU16 (s : String) : Except IntError Nat :=
  match s.data with
  | [] => .error .empty
  | cs₀ =>
    let cs := match cs₀ with
      | '+' :: r => r
      | _ => cs₀
    if cs.isEmpty then .error .invalidDigit
    else
      cs.foldlM (fun (acc : Nat) c =>
        if c.isDigit then
          let n := acc * 10 + (c.toNat - 48)
          if n < 2 ^ 16 then .ok n else .error .posOverflow
        else .error .invalidDigit) 0

/-- Parsing `impl FromStr for TxType`: trim, parse as `u16`, convert. -/
def TxType.from_str (s : String) : Except IntError TxType := do
  let n ← parseU16 (rustTrim s)
  pure (TxType.fromCode n)

/-- Minimal transaction spine (`iati_types::tx::Transaction`). -/
structure Transaction where
  tx_type : TxType
  date : NaiveDate
  value : Money
  provider_org : Option OrgRef
  receiver_org : Option OrgRef
  currency_hint : Option CurrencyCode
deriving DecidableEq, Repr

/-- Constructor `Transaction::new`. -/
def Transaction.new (tx_type : TxType) (date : NaiveDate) (value : Money) :
    Transaction :=
  ⟨tx_type, date, value, none, none, none⟩

/-- IATI activity (`iati_types::Activity`). -/
structure Activity where
  iati_identifier : String
  default_currency : Option CurrencyCode
  transactions : List Transaction
  reporting_org : Option OrgRef
  activity_start : Option NaiveDate
  activity_end : Option NaiveDate
deriving DecidableEq, Repr

/-- Constructor `Activity::new`. -/
def Activity.new (iati_identifier : String) : Activity :=
  ⟨iati_identifier, none, [], none, none, none⟩

/-- Error taxonomy of the parser (`iati_xml::ParseError`). The first four
constructors wrap tokenizer-collaborator failures (`quick_xml` syntax,
attribute, encoding and io errors) and cannot arise over an event stream that
the tokenizer already produced; they carry their message. -/
inductive ParseError
  | Xml (msg : String)
  | XmlAttr (msg : String)
  | Encoding (msg : String)
  | Io (msg : String)
  | Missing (name : String)
  | Decimal (e : DecError)
  | Int (e : IntError)
  | Date (e : DateError)
deriving DecidableEq, Repr

/-- Structural event of the streaming tokenizer (`quick_xml::events::Event`),
with names decoded and attribute values unescaped. `Eof` is the end of the
event list. -/
inductive XmlEvent
  | Start (name : String) (attrs : List (String × String))
  | Empty (name : String) (attrs : List (String × String))
  | Text (s : String)
  | CData (s : String)
  | Comment (s : String)
  | PI (s : String)
  | End (name : String)
deriving DecidableEq, Repr

/-- Builder used while reading a `<transaction>` (`iati_xml::TxBuild`). -/
structure TxBuild where
  tx_type : Option TxType
  date : Option NaiveDate
  amount : Option Decimal
  value_currency : Option CurrencyCode
  value_date : Option NaiveDate
deriving DecidableEq, Repr

/-- Value `TxBuild::default()`. -/
def TxBuild.default : TxBuild := ⟨none, none, none, none, none⟩

/-- Helper `parse_tx_type`: scan the attributes for `code`, parsing each
occurrence as a `u16` (so a bad occurrence errors even without an open
builder); when a builder is open, its `tx_type` is set from the last
occurrence, and a missing `code` is an error. -/
def parse_tx_type (attrs : List (String × String)) (tx_build : Option TxBuild) :
    Except ParseError (Option TxBuild) := do
  let code ← (attrs.foldlM (fun (code : Option Nat) kv =>
      if kv.1 = "code" then
        match parseU16 kv.2 with
        | .ok n => .ok (some n)
        | .error e => .error (ParseError.Int e)
      else .ok code) none : Except ParseError (Option Nat))
  match tx_build with
  | some b =>
    match code with
    | some c => .ok (some { b with tx_type := some (TxType.fromCode c) })
    | none => .error (.Missing "transaction-type/@code")
  | none => .ok none

/-- Helper `parse_tx_date`: scan the attributes for `iso-date` (last
occurrence wins); when a builder is open, a missing attribute is an error and
the value is parsed as a `%Y-%m-%d` date. -/
def parse_tx_date (attrs : List (String × String)) (tx_build : Option TxBuild) :
    Except ParseError (Option TxBuild) :=
  let iso := attrs.foldl
    (fun (iso : Option String) kv => if kv.1 = "iso-date" then some kv.2 else iso) none
  match tx_build with
  | some b =>
    match iso with
    | some s =>
      match NaiveDate.parse_from_str s with
      | .ok d => .ok (some { b with date := some d })
      | .error e => .error (.Date e)
    | none => .error (.Missing "transaction-date/@iso-date")
  | none => .ok none

/-- Attribute scan of a `value` element (the loop duplicated in the `Start`
and `Empty` arms of `parse_activity`): `currency` goes through
`CurrencyCode::from` (upper-casing), `value-date` is parsed as a date. -/
def readValueAttrs (attrs : List (String × String)) (b : TxBuild) :
    Except ParseError TxBuild :=
  attrs.foldlM (fun (b : TxBuild) kv =>
    if kv.1 = "currency" then
      .ok { b with value_currency := some (CurrencyCode.fromString kv.2) }
    else if kv.1 = "value-date" then
      match NaiveDate.parse_from_str kv.2 with
      | .ok d => .ok { b with value_date := some d }
      | .error e => .error (ParseError.Date e)
    else .ok b) b

/-- Loop state of `parse_activity`: the generic text-capture buffer, the
activity fields accumulated so far and the optional open transaction
builder. -/
structure PaState where
  current_text : Option String
  default_currency : Option CurrencyCode
  iati_identifier : Option String
  transactions : List Transaction
  tx_build : Option TxBuild
deriving DecidableEq, Repr

/-- Initial state of the `parse_activity` loop. -/
def paInit : PaState := ⟨none, none, none, [], none⟩

/-- One iteration of the `parse_activity` event loop, transcribed arm by arm
from the `match reader.read_event_into(..)` in `iati-xml/src/lib.rs`. -/
def paStep (st : PaState) (ev : XmlEvent) : Except ParseError PaState :=
  match ev with
  | .Start name attrs =>
    if name = "iati-activity" then
      let dc := attrs.foldl
        (fun (dc : Option CurrencyCode) kv =>
          if kv.1 = "default-currency" then some (CurrencyCode.mk kv.2) else dc)
        st.default_currency
      .ok { st with default_currency := dc }
    else if name = "iati-identifier" then
      .ok { st with current_text := some "" }
    else if name = "transaction" then
      .ok { st with tx_build := some TxBuild.default }
    else if name = "transaction-type" then do
      let tb ← parse_tx_type attrs st.tx_build
      .ok { st with tx_build := tb }
    else if name = "transaction-date" then do
      let tb ← parse_tx_date attrs st.tx_build
      .ok { st with tx_build := tb }
    else if name = "value" then
      let st := { st with current_text := some "" }
      match st.tx_build with
      | some b => do
        let b ← readValueAttrs attrs b
        .ok { st with tx_build := some b }
      | none => .ok st
    else .ok st
  | .Empty name attrs =>
    if name = "transaction-type" then do
      let tb ← parse_tx_type attrs st.tx_build
      .ok { st with tx_build := tb }
    else if name = "transaction-date" then do
      let tb ← parse_tx_date attrs st.tx_build
      .ok { st with tx_build := tb }
    else if name = "value" then
      match st.tx_build with
      | some b => do
        let b ← readValueAttrs attrs b
        .ok { st with tx_build := some b }
      | none => .ok st
    else .ok st
  | .Text t =>
    match st.current_text with
    | some s => .ok { st with current_text := some (s ++ t) }
    | none => .ok st
  | .End name =>
    if name = "iati-identifier" then
      let val := st.current_text.getD ""
      .ok { st with current_text := none, iati_identifier := some (rustTrim val) }
    else if name = "value" then
      match st.tx_build with
      | some b =>
        let val := st.current_text.getD ""
        match Decimal.fromStr (rustTrim val) with
        | .ok dec =>
          .ok { st with current_text := none, tx_build := some { b with amount := some dec } }
        | .error e => .error (.Decimal e)
      | none => .ok st
    else if name = "transaction" then
      match st.tx_build with
      | some b =>
        match b.tx_type with
        | none => .error (.Missing "transaction-type")
        | some tx_type =>
          match b.date with
          | none => .error (.Missing "transaction-date/@iso-date")
          | some date =>
            match b.amount with
            | none => .error (.Missing "value")
            | some amount =>
              let money : Money := ⟨amount, b.value_currency, b.value_date⟩
              let txs := st.transactions ++ [Transaction.new tx_type date money]
              .ok { st with tx_build := none, transactions := txs }
      | none => .ok { st with tx_build := none }
    else .ok st
  | .CData _ => .ok st
  | .Comment _ => .ok st
  | .PI _ => .ok st

/-- Function `parse_activity`: run the event loop over one activity fragment,
then require the identifier and assemble the `Activity`. -/
def parse_activity (events : List XmlEvent) : Except ParseError Activity := do
  let st ← events.foldlM paStep paInit
  match st.iati_identifier with
  | none => .error (.Missing "iati-identifier")
  | some id =>
    .ok { Activity.new id with
          default_currency := st.default_currency,
          transactions := st.transactions }

/-- Loop state of `parse_activities`: the collected activities, the depth
counter and the optional open capture buffer (the `Writer` over a byte
vector; over the event model the buffer is the written event list, and the
`String::from_utf8` / re-`Reader` round trip back through `parse_activity`
is the identity on it). -/
structure SegState where
  activities : List Activity
  depth : Nat
  writer : Option (List XmlEvent)
deriving DecidableEq, Repr

/-- Initial state of the `parse_activities` loop. -/
def segInit : SegState := ⟨[], 0, none⟩

/-- Mirror arm of the `parse_activities` loop: while a buffer is open every
event is appended to it, otherwise the event is dropped. The arm's nested
check incrementing `depth` on a nested `iati-activity` start is kept for
fidelity, although the earlier guarded arm captures every such event first,
so it never fires. -/
def segMirror (st : SegState) (ev : XmlEvent) : SegState :=
  match st.writer with
  | some w =>
    let depth :=
      match ev with
      | .Start n _ => if n = "iati-activity" then st.depth + 1 else st.depth
      | _ => st.depth
    { st with depth := depth, writer := some (w ++ [ev]) }
  | none => st

/-- One iteration of the `parse_activities` event loop, transcribed arm by
arm (in the source's arm order, guards first) from `iati-xml/src/lib.rs`. -/
def segStep (st : SegState) (ev : XmlEvent) : Except ParseError SegState :=
  match ev with
  | .Start n attrs =>
    if n = "iati-activity" then
      .ok { st with depth := 1, writer := some [XmlEvent.Start n attrs] }
    else .ok (segMirror st ev)
  | .Empty n attrs =>
    if n = "iati-activity" then do
      let act ← parse_activity [XmlEvent.Empty n attrs]
      .ok { st with activities := st.activities ++ [act] }
    else .ok (segMirror st ev)
  | .Text _ => .ok (segMirror st ev)
  | .CData _ => .ok (segMirror st ev)
  | .Comment _ => .ok (segMirror st ev)
  | .PI _ => .ok (segMirror st ev)
  | .End n =>
    match st.writer with
    | some w =>
      let w := w ++ [XmlEvent.End n]
      if n = "iati-activity" then
        let depth := st.depth - 1
        if depth = 0 then do
          let act ← parse_activity w
          let acts := st.activities ++ [act]
          .ok { st with depth := depth, writer := none, activities := acts }
        else .ok { st with depth := depth, writer := some w }
      else .ok { st with writer := some w }
    | none => .ok st

/-- Function `parse_activities`: run the segmentation loop over a whole
document's events and return the collected activities. -/
def parse_activities (events : List XmlEvent) : Except ParseError (List Activity) := do
  let st ← events.foldlM segStep segInit
  .ok st.activities

/-- Event stream of the spec's single-activity scenario fragment, as the
tokenizer (with `trim_text(true)`) delivers it. -/
def scenarioEvents : List XmlEvent :=
  [ .Start "iati-activity" [("default-currency", "USD")],
    .Start "iati-identifier" [], .Text "IATI-XYZ-12345", .End "iati-identifier",
    .Start "transaction" [],
    .Empty "transaction-type" [("code", "3")],
    .Empty "transaction-date" [("iso-date", "2023-05-01")],
    .Start "value" [("currency", "EUR"), ("value-date", "2023-05-02")],
    .Text "50.00", .End "value",
    .End "transaction",
    .End "iati-activity" ]

/-- Event stream of a fragment whose `iati-identifier` element closes around
text `t`, and nothing else. -/
def identifierEvents (t : String) : List XmlEvent :=
  [ .Start "iati-activity" [],
    .Start "iati-identifier" [], .Text t, .End "iati-identifier",
    .End "iati-activity" ]

/-- Event stream of a fragment with one transaction whose `value` element
opens with currency/value-date attributes, captures text `t` and closes. -/
def valueTextEvents (t : String) : List XmlEvent :=
  [ .Start "iati-activity" [],
    .Start "iati-identifier" [], .Text "ACT-V", .End "iati-identifier",
    .Start "transaction" [],
    .Empty "transaction-type" [("code", "3")],
    .Empty "transaction-date" [("iso-date", "2023-05-01")],
    .Start "value" [("currency", "USD"), ("value-date", "2023-05-01")],
    .Text t, .End "value",
    .End "transaction",
    .End "iati-activity" ]

/-- Event stream of the spec's self-closed `<value/>` scenario: attributes
present, no text, inside a complete transaction. -/
def selfClosedValueEvents : List XmlEvent :=
  [ .Start "iati-activity" [],
    .Start "iati-identifier" [], .Text "ACT-EMPTY", .End "iati-identifier",
    .Start "transaction" [],
    .Empty "transaction-type" [("code", "3")],
    .Empty "transaction-date" [("iso-date", "2023-05-01")],
    .Empty "value" [("currency", "USD"), ("value-date", "2023-05-01")],
    .End "transaction",
    .End "iati-activity" ]

/-- Char.ofNat evaluates back to its argument on valid code points. -/
theorem char_toNat_ofNat_valid (n : Nat) (h : n.isValidChar) :
    (Char.ofNat n).toNat = n := by
  simp [Char.ofNat, h, Char.ofNatAux, Char.toNat]
  rfl

/-- ASCII upper-casing of a char is idempotent. -/
theorem char_toUpper_idem (c : Char) : c.toUpper.toUpper = c.toUpper := by
  unfold Char.toUpper
  by_cases h : c.toNat ≥ 97 ∧ c.toNat ≤ 122
  · have hv : (c.toNat - 32).isValidChar := by
      constructor
      omega
    simp [h, char_toNat_ofNat_valid _ hv]
    omega
  · simp [h]

/-- ASCII upper-casing of a string is idempotent. -/
theorem toAsciiUppercase_idem (s : String) :
    s.toAsciiUppercase.toAsciiUppercase = s.toAsciiUppercase := by
  simp [String.toAsciiUppercase, Function.comp_def, char_toUpper_idem]

/-- C1: parsing the spec's single-activity scenario fragment via
`parse_activity` succeeds and returns the activity with identifier
`IATI-XYZ-12345`, default currency USD, and exactly one transaction of type
Disbursement (code 3), date 2023-05-01 and value 50.00 EUR with value-date
2023-05-02. -/
theorem C1_scenario_parse_activity :
    parse_activity scenarioEvents = .ok
      { iati_identifier := "IATI-XYZ-12345",
        default_currency := some ⟨"USD"⟩,
        transactions :=
          [Transaction.new TxType.Disbursement ⟨2023, 5, 1⟩
            ⟨⟨5000, 2⟩, some ⟨"EUR"⟩, some ⟨2023, 5, 2⟩⟩],
        reporting_org := none,
        activity_start := none,
        activity_end := none } := by
  decide

/-- C2 counterexample: an activity fragment whose `iati-identifier` element
captures no text does not fail with `Missing "iati-identifier"`; it parses
successfully to an `Activity` whose identifier is the empty string, because
`parse_activity` never checks the trimmed capture for emptiness. -/
theorem C2_counterexample :
    parse_activity (identifierEvents "") =
      .ok ⟨"", none, [], none, none, none⟩ := by
  decide

/-- C2 amended: the captured identifier text is trimmed but not required to
be non-empty: a fragment whose `iati-identifier` element closes around text
`t` parses to an `Activity` whose identifier is `t` trimmed, even when that
trims to the empty string; `Missing "iati-identifier"` arises only when no
identifier was captured at all, as on a fragment with no `iati-identifier`
element. -/
theorem C2_amended_identifier_not_checked_nonempty :
    (∀ t : String,
      parse_activity (identifierEvents t) =
        .ok ⟨rustTrim t, none, [], none, none, none⟩) ∧
    parse_activity [.Start "iati-activity" [], .End "iati-activity"] =
      .error (.Missing "iati-identifier") := by
  constructor
  · intro t
    rfl
  · decide

/-- C4: `TxType` construction round-trips on codes: every 16-bit code `c`
satisfies `(TxType::from(c)).code() = c`, for known codes and the `Unknown`
catch-all alike; in particular code 42 yields the unknown variant, its code
reads back as 42, and rendering that code as text and re-parsing it through
`FromStr` yields the same `TxType` value. -/
theorem C4_txtype_code_roundtrip :
    (∀ c : Nat, c < 2 ^ 16 → (TxType.fromCode c).code = c) ∧
    TxType.fromCode 42 = .Unknown 42 ∧
    (TxType.fromCode 42).code = 42 ∧
    TxType.from_str (TxType.fromCode 42).displayStr = .ok (TxType.fromCode 42) := by
  refine ⟨fun c _ => ?_, by decide, by decide, by decide⟩
  unfold TxType.fromCode
  split <;> rfl

/-- C4 witness: the round-trip theorem applied at the concrete code 42. -/
theorem C4_txtype_code_roundtrip_witness :
    (TxType.fromCode 42).code = 42 :=
  C4_txtype_code_roundtrip.1 42 (by decide)

/-- Event stream of a fragment carrying a `default-currency` attribute and a
plain identifier. -/
def defaultCurrencyEvents (s : String) : List XmlEvent :=
  [ .Start "iati-activity" [("default-currency", s)],
    .Start "iati-identifier" [], .Text "ACT-DC", .End "iati-identifier",
    .End "iati-activity" ]

/-- Event stream of a fragment with one transaction whose `value` element
carries currency attribute `s`. -/
def valueCurrencyEvents (s : String) : List XmlEvent :=
  [ .Start "iati-activity" [],
    .Start "iati-identifier" [], .Text "ACT-VC", .End "iati-identifier",
    .Start "transaction" [],
    .Empty "transaction-type" [("code", "3")],
    .Empty "transaction-date" [("iso-date", "2023-05-01")],
    .Start "value" [("currency", s), ("value-date", "2023-05-01")],
    .Text "50.00", .End "value",
    .End "transaction",
    .End "iati-activity" ]

/-- C5 counterexample: the `default-currency` attribute does not reach the
model upper-cased: parsing a fragment with `default-currency="usd"` stores
the currency code `"usd"` verbatim (the field goes through the bare
`CurrencyCode(..)` constructor, not `CurrencyCode::from`), which differs from
the ASCII upper-casing that `CurrencyCode::from` would produce. -/
theorem C5_counterexample :
    parse_activity (defaultCurrencyEvents "usd") =
      .ok ⟨"ACT-DC", some ⟨"usd"⟩, [], none, none, none⟩ ∧
    (⟨"usd"⟩ : CurrencyCode) ≠ CurrencyCode.fromString "usd" := by
  constructor
  · decide
  · decide

/-- C5 amended: `CurrencyCode::from` stores the ASCII upper-casing of its
input, so the inputs `usd`, `USD` and `Usd` all yield the stored code `USD`
and the normalization is idempotent; during parsing the `value/@currency`
attribute goes through `CurrencyCode::from` and is stored upper-cased, but
the `iati-activity/@default-currency` attribute is stored verbatim through
the bare constructor, without upper-casing. -/
theorem C5_amended_currency_normalization :
    (∀ s : String, CurrencyCode.fromString s = ⟨⟨s.data.map Char.toUpper⟩⟩) ∧
    (∀ s : String,
      (CurrencyCode.fromString s).code.toAsciiUppercase =
        (CurrencyCode.fromString s).code) ∧
    (CurrencyCode.fromString "usd" = ⟨"USD"⟩ ∧
     CurrencyCode.fromString "USD" = ⟨"USD"⟩ ∧
     CurrencyCode.fromString "Usd" = ⟨"USD"⟩) ∧
    (∀ s : String,
      parse_activity (valueCurrencyEvents s) = .ok
        { iati_identifier := "ACT-VC",
          default_currency := none,
          transactions :=
            [Transaction.new TxType.Disbursement ⟨2023, 5, 1⟩
              ⟨⟨5000, 2⟩, some (CurrencyCode.fromString s), some ⟨2023, 5, 1⟩⟩],
          reporting_org := none,
          activity_start := none,
          activity_end := none }) ∧
    (∀ s : String,
      parse_activity (defaultCurrencyEvents s) =
        .ok ⟨"ACT-DC", some ⟨s⟩, [], none, none, none⟩) := by
  refine ⟨fun s => rfl, fun s => ?_, by decide, fun s => rfl, fun s => rfl⟩
  exact toAsciiUppercase_idem s

/-- Pure on `Except` is the success constructor. -/
theorem except_pure {ε α : Type} (a : α) : (pure a : Except ε α) = .ok a := rfl

/-- Functor map on `Except` applies to a success value. -/
theorem except_map_ok {ε α β : Type} (f : α → β) (a : α) :
    (f <$> (Except.ok a : Except ε α)) = .ok (f a) := rfl

/-- Functor map on `Except` passes an error through. -/
theorem except_map_error {ε α β : Type} (f : α → β) (e : ε) :
    (f <$> (Except.error e : Except ε α)) = .error e := rfl

/-- Bind on `Except` collapses on a success value. -/
theorem except_ok_bind {ε α β : Type} (a : α) (f : α → Except ε β) :
    (Except.ok a >>= f) = f a := rfl

/-- Bind on `Except` short-circuits on an error. -/
theorem except_error_bind {ε α β : Type} (e : ε) (f : α → Except ε β) :
    ((Except.error e : Except ε α) >>= f) = .error e := rfl

/-- C3 counterexample: a `value` element that closes around empty captured
text inside an open transaction does not fail with `Missing "value"`: the
trimmed empty string is handed to the decimal parser and the failure is the
invalid-decimal error it returns. -/
theorem C3_counterexample :
    parse_activity (valueTextEvents "") =
      .error (.Decimal (.errorString "Invalid decimal: empty")) ∧
    parse_activity (valueTextEvents "") ≠ .error (.Missing "value") := by
  constructor
  · decide
  · decide

/-- C3 amended: when a `value` element inside an open transaction closes with
an `End` event, its captured text (empty if it contained no text) is trimmed
and parsed as an arbitrary-precision decimal, and an empty or unparsable
result fails with the wrapped invalid-decimal error — not with
`Missing "value"`; a parsable result is stored as the amount. A self-closed
`<value/>` emits no `End` event at all: its currency and value-date
attributes are recorded but the amount stays unset, so `Missing "value"` is
raised only later, when the enclosing transaction closes. -/
theorem C3_amended_empty_value_text :
    (∀ (t : String) (e : DecError), Decimal.fromStr (rustTrim t) = .error e →
      parse_activity (valueTextEvents t) = .error (.Decimal e)) ∧
    (∀ (t : String) (d : Decimal), Decimal.fromStr (rustTrim t) = .ok d →
      parse_activity (valueTextEvents t) = .ok
        { iati_identifier := "ACT-V",
          default_currency := none,
          transactions :=
            [Transaction.new TxType.Disbursement ⟨2023, 5, 1⟩
              ⟨d, some ⟨"USD"⟩, some ⟨2023, 5, 1⟩⟩],
          reporting_org := none,
          activity_start := none,
          activity_end := none }) ∧
    parse_activity selfClosedValueEvents = .error (.Missing "value") := by
  have e1 : parseU16 "3" = .ok 3 := rfl
  have e2 : NaiveDate.parse_from_str "2023-05-01" = .ok ⟨2023, 5, 1⟩ := rfl
  have e3 : rustTrim "ACT-V" = "ACT-V" := rfl
  have e4 : CurrencyCode.fromString "USD" = ⟨"USD"⟩ := rfl
  have e5 : ∀ u : String, "" ++ u = u := fun _ => rfl
  refine ⟨fun t e h => ?_, fun t d h => ?_, by decide⟩
  · simp [parse_activity, valueTextEvents, List.foldlM, paStep, parse_tx_type,
          parse_tx_date, readValueAttrs, paInit, TxBuild.default, Option.getD,
          e1, e2, e3, e4, e5, h, except_ok_bind, except_error_bind]
  · simp [parse_activity, valueTextEvents, List.foldlM, paStep, parse_tx_type,
          parse_tx_date, readValueAttrs, paInit, TxBuild.default, Option.getD,
          e1, e2, e3, e4, e5, h, except_ok_bind, except_error_bind,
          Transaction.new, Activity.new, TxType.fromCode]

/-- C3 witness: the amended theorem applied to a concrete parsable capture
with surrounding whitespace. -/
theorem C3_amended_empty_value_text_witness :
    parse_activity (valueTextEvents " 50.00 ") = .ok
      { iati_identifier := "ACT-V",
        default_currency := none,
        transactions :=
          [Transaction.new TxType.Disbursement ⟨2023, 5, 1⟩
            ⟨⟨5000, 2⟩, some ⟨"USD"⟩, some ⟨2023, 5, 1⟩⟩],
        reporting_org := none,
        activity_start := none,
        activity_end := none } :=
  C3_amended_empty_value_text.2.1 " 50.00 " ⟨5000, 2⟩ (by decide)

/-- Test for events that carry no `iati-activity` name: the events a
captured activity body may contain so that the segmenter merely mirrors
them. -/
def notActivityEvent : XmlEvent → Bool
  | .Start n _ => !(n == "iati-activity")
  | .Empty n _ => !(n == "iati-activity")
  | .End n => !(n == "iati-activity")
  | _ => true

/-- Top-level filler between activities: a comment or whitespace-only
text. -/
def isJunk : XmlEvent → Bool
  | .Comment _ => true
  | .Text s => s.data.all Char.isWhitespace
  | _ => false

/-- Top-level item of a multi-activity document: filler, or one
`iati-activity` element given by its attributes and body events. -/
inductive DocItem
  | junk (ev : XmlEvent)
  | block (attrs : List (String × String)) (body : List XmlEvent)

/-- Events of one document item. -/
def DocItem.events : DocItem → List XmlEvent
  | .junk ev => [ev]
  | .block attrs body =>
    XmlEvent.Start "iati-activity" attrs :: (body ++ [XmlEvent.End "iati-activity"])

/-- Events of a whole document, in source order. -/
def docEvents (items : List DocItem) : List XmlEvent :=
  items.flatMap DocItem.events

/-- Activities a document item contributes: none for filler, the delegated
`parse_activity` result for an activity element. -/
def DocItem.acts : DocItem → List Activity
  | .junk _ => []
  | .block attrs body =>
    match parse_activity (DocItem.events (.block attrs body)) with
    | .ok a => [a]
    | .error _ => []

/-- Whether an item is an activity element. -/
def DocItem.isBlock : DocItem → Bool
  | .junk _ => false
  | .block _ _ => true

/-- Well-formedness of a document item: filler is comment/whitespace, and an
activity element has a body free of `iati-activity` names whose captured
sub-document parses successfully. -/
def DocItem.good : DocItem → Prop
  | .junk ev => isJunk ev = true
  | .block attrs body =>
    body.all notActivityEvent = true ∧
    ∃ a, parse_activity (DocItem.events (.block attrs body)) = .ok a

/-- While a capture buffer is open, a body event free of `iati-activity`
names is mirrored into the buffer and changes nothing else. -/
theorem seg_mirror_run (body : List XmlEvent) (h : body.all notActivityEvent = true) :
    ∀ (acts : List Activity) (depth : Nat) (w : List XmlEvent),
    List.foldlM segStep (⟨acts, depth, some w⟩ : SegState) body =
      .ok ⟨acts, depth, some (w ++ body)⟩ := by
  induction body with
  | nil => intro acts depth w; simp [List.foldlM]; rfl
  | cons ev rest ih =>
    intro acts depth w
    rw [List.all_cons, Bool.and_eq_true] at h
    have hstep : segStep ⟨acts, depth, some w⟩ ev = .ok ⟨acts, depth, some (w ++ [ev])⟩ := by
      cases ev with
      | Start n attrs =>
        have hn : ¬(n = "iati-activity") := by
          have := h.1
          simp [notActivityEvent] at this
          exact this
        simp [segStep, segMirror, hn]
      | Empty n attrs =>
        have hn : ¬(n = "iati-activity") := by
          have := h.1
          simp [notActivityEvent] at this
          exact this
        simp [segStep, segMirror, hn]
      | End n =>
        have hn : ¬(n = "iati-activity") := by
          have := h.1
          simp [notActivityEvent] at this
          exact this
        simp [segStep, segMirror, hn]
      | Text s => simp [segStep, segMirror]
      | CData s => simp [segStep, segMirror]
      | Comment s => simp [segStep, segMirror]
      | PI s => simp [segStep, segMirror]
    rw [List.foldlM_cons, hstep, except_ok_bind, ih h.2]
    simp

/-- Running the segmenter over one activity element from an idle state
(no open buffer, depth zero) delegates its full event list to
`parse_activity`: on success the activity is appended, on failure the error
is returned. -/
theorem seg_block_run (attrs : List (String × String)) (body : List XmlEvent)
    (h : body.all notActivityEvent = true) (acts : List Activity) :
    List.foldlM segStep (⟨acts, 0, none⟩ : SegState) (DocItem.events (.block attrs body)) =
      match parse_activity (DocItem.events (.block attrs body)) with
      | .ok a => .ok ⟨acts ++ [a], 0, none⟩
      | .error e => .error e := by
  rw [DocItem.events, List.foldlM_cons]
  have hstart : segStep ⟨acts, 0, none⟩ (.Start "iati-activity" attrs) =
      .ok ⟨acts, 1, some [XmlEvent.Start "iati-activity" attrs]⟩ := by
    simp [segStep]
  rw [hstart, except_ok_bind, List.foldlM_append,
      seg_mirror_run body h acts 1 [XmlEvent.Start "iati-activity" attrs], except_ok_bind]
  have hbuf : (XmlEvent.Start "iati-activity" attrs :: body) ++ [XmlEvent.End "iati-activity"] =
      XmlEvent.Start "iati-activity" attrs :: (body ++ [XmlEvent.End "iati-activity"]) := by
    simp
  cases hp : parse_activity
      (XmlEvent.Start "iati-activity" attrs :: (body ++ [XmlEvent.End "iati-activity"])) with
  | ok a =>
    simp [List.foldlM, segStep, hbuf, hp, except_ok_bind]
  | error e =>
    simp [List.foldlM, segStep, hbuf, hp, except_error_bind]

/-- Junk at top level with no buffer open leaves the segmenter state
unchanged. -/
theorem seg_junk_step (ev : XmlEvent) (h : isJunk ev = true)
    (acts : List Activity) :
    segStep ⟨acts, 0, none⟩ ev = .ok ⟨acts, 0, none⟩ := by
  cases ev with
  | Comment s => simp [segStep, segMirror]
  | Text s => simp [segStep, segMirror]
  | Start n attrs => simp [isJunk] at h
  | Empty n attrs => simp [isJunk] at h
  | End n => simp [isJunk] at h
  | CData s => simp [isJunk] at h
  | PI s => simp [isJunk] at h

/-- Running the segmenter over a well-formed document from an idle state
appends exactly the activities contributed by its items, in source order. -/
theorem seg_items_run (items : List DocItem) (h : ∀ it ∈ items, DocItem.good it) :
    ∀ acts : List Activity,
    List.foldlM segStep (⟨acts, 0, none⟩ : SegState) (docEvents items) =
      .ok ⟨acts ++ items.flatMap DocItem.acts, 0, none⟩ := by
  induction items with
  | nil => intro acts; simp [docEvents, List.foldlM]; rfl
  | cons it rest ih =>
    intro acts
    have hit := h it (by simp)
    have hrest : ∀ x ∈ rest, DocItem.good x := fun x hx => h x (by simp [hx])
    have hdoc : docEvents (it :: rest) = it.events ++ docEvents rest := by
      simp [docEvents]
    rw [hdoc, List.foldlM_append]
    cases it with
    | junk ev =>
      have : List.foldlM segStep (⟨acts, 0, none⟩ : SegState) (DocItem.junk ev).events =
          .ok ⟨acts, 0, none⟩ := by
        simp [DocItem.events, List.foldlM, seg_junk_step ev hit acts, except_ok_bind]
      rw [this, except_ok_bind, ih hrest acts]
      simp [DocItem.acts]
    | block attrs body =>
      obtain ⟨hbody, a, hp⟩ := hit
      rw [seg_block_run attrs body hbody acts, hp, except_ok_bind, ih hrest (acts ++ [a])]
      simp [List.flatMap_cons, DocItem.acts, hp, List.append_assoc]

/-- C6: document segmentation preserves order and count: a well-formed
document whose top level interleaves `iati-activity` elements with
whitespace and comments, each captured activity sub-document parsing
successfully, yields through `parse_activities` exactly the delegated
`parse_activity` results in source order — one per top-level occurrence, so
their number equals the number of activity elements. -/
theorem C6_segmentation_order_count (items : List DocItem)
    (h : ∀ it ∈ items, DocItem.good it) :
    parse_activities (docEvents items) = .ok (items.flatMap DocItem.acts) ∧
    (items.flatMap DocItem.acts).length = items.countP DocItem.isBlock := by
  constructor
  · unfold parse_activities segInit
    rw [seg_items_run items h []]
    rfl
  · induction items with
    | nil => simp
    | cons it rest ih =>
      have hit := h it (by simp)
      have hrest : ∀ x ∈ rest, DocItem.good x := fun x hx => h x (by simp [hx])
      rw [List.flatMap_cons, List.countP_cons]
      cases it with
      | junk ev => simp [DocItem.acts, DocItem.isBlock, ih hrest]
      | block attrs body =>
        obtain ⟨hbody, a, hp⟩ := hit
        simp [DocItem.acts, DocItem.isBlock, hp, ih hrest]

/-- Document with two activity elements, a comment and whitespace between
them (the spec's two-activity wrapper scenario). -/
def wrapperDoc : List DocItem :=
  [ .junk (.Comment " header "),
    .block [("default-currency", "USD")]
      [ .Start "iati-identifier" [], .Text "ACT-1", .End "iati-identifier" ],
    .junk (.Text "  "),
    .block [("default-currency", "EUR")]
      [ .Start "iati-identifier" [], .Text "ACT-2", .End "iati-identifier" ] ]

/-- C6 witness: the segmentation theorem applied to the concrete two-activity
document, yielding both activities in source order with their own default
currencies. -/
theorem C6_segmentation_order_count_witness :
    parse_activities (docEvents wrapperDoc) =
      .ok [⟨"ACT-1", some ⟨"USD"⟩, [], none, none, none⟩,
           ⟨"ACT-2", some ⟨"EUR"⟩, [], none, none, none⟩] := by
  have hgood : ∀ it ∈ wrapperDoc, DocItem.good it := by
    intro it hit
    simp [wrapperDoc] at hit
    rcases hit with rfl | rfl | rfl | rfl
    · exact (by decide : isJunk (XmlEvent.Comment " header ") = true)
    · exact ⟨by decide, ⟨⟨"ACT-1", some ⟨"USD"⟩, [], none, none, none⟩, by decide⟩⟩
    · exact (by decide : isJunk (XmlEvent.Text "  ") = true)
    · exact ⟨by decide, ⟨⟨"ACT-2", some ⟨"EUR"⟩, [], none, none, none⟩, by decide⟩⟩
  exact (C6_segmentation_order_count wrapperDoc hgood).1.trans (by decide)

/-- C7: the whole-document parse is fail-fast and never partial: when, after
any well-formed prefix of activity elements and filler, a delegated
`iati-activity` sub-document fails to parse, `parse_activities` returns that
error — whatever events follow — and in particular never a list of the
activities parsed before the failure. -/
theorem C7_fail_fast_abort (items : List DocItem) (attrs : List (String × String))
    (body : List XmlEvent) (e : ParseError) (rest : List XmlEvent)
    (hgood : ∀ it ∈ items, DocItem.good it)
    (hbody : body.all notActivityEvent = true)
    (hfail : parse_activity (DocItem.events (.block attrs body)) = .error e) :
    parse_activities (docEvents items ++ (DocItem.events (.block attrs body) ++ rest)) =
      .error e := by
  unfold parse_activities segInit
  rw [List.foldlM_append, seg_items_run items hgood [], except_ok_bind,
      List.foldlM_append, seg_block_run attrs body hbody, hfail]
  simp [except_error_bind]

/-- C7 witness: after one successfully parsed activity, an activity element
with no identifier aborts the whole parse with its error, although further
events follow. -/
theorem C7_fail_fast_abort_witness :
    parse_activities
      (docEvents
          [DocItem.block [("default-currency", "USD")]
            [ .Start "iati-identifier" [], .Text "ACT-1", .End "iati-identifier" ]] ++
        (DocItem.events (.block [] []) ++ [XmlEvent.Comment "tail"])) =
      .error (.Missing "iati-identifier") := by
  apply C7_fail_fast_abort
  · intro it hit
    simp at hit
    subst hit
    exact ⟨by decide, ⟨⟨"ACT-1", some ⟨"USD"⟩, [], none, none, none⟩, by decide⟩⟩
  · decide
  · decide

/-- Error taxonomy of the FX crate (`iati_fx::provider::FxError`). -/
inductive FxError
  | MissingRate (c : CurrencyCode) (d : NaiveDate)
  | UnsupportedCurrency (c : CurrencyCode)
  | UnsupportedTarget (c : CurrencyCode)
  | MissingDate
deriving DecidableEq, Repr

/-- Trait `FxProvider`, as the one capability `convert_money` consumes: a
rate for a source currency, target currency and date, or an error. -/
def FxProvider : Type :=
  CurrencyCode → CurrencyCode → NaiveDate → Except FxError Decimal

/-- Year and month key of the monthly rate table (`iati_fx::table::YearMonth`). -/
structure YearMonth where
  year : Int
  month : Nat
deriving DecidableEq, Repr

/-- Conversion `YearMonth::from_date`: the date's year and month. -/
def YearMonth.from_date (date : NaiveDate) : YearMonth :=
  ⟨date.year, date.month⟩

/-- Monthly "domestic currency per USD" rate table
(`iati_fx::table::FxTable`); the `BTreeMap` is modelled as an association
list looked up by key equality. -/
structure FxTable where
  ncu_per_usd : List ((CurrencyCode × YearMonth) × Decimal)

/-- Method `FxTable::get_monthly_usd_rate`: the rate stored for the
currency and the date's month, or `MissingRate`. -/
def FxTable.get_monthly_usd_rate (t : FxTable) (code : CurrencyCode)
    (date : NaiveDate) : Except FxError Decimal :=
  match t.ncu_per_usd.lookup (code, YearMonth.from_date date) with
  | some r => .ok r
  | none => .error (.MissingRate code date)

/-- Method `FxTable::get_rate` (the `FxProvider` impl): rate 1 when source
equals target, with no table lookup; otherwise the cross rate of the two
monthly USD rates. -/
def FxTable.get_rate (t : FxTable) (source_currency target_currency : CurrencyCode)
    (date : NaiveDate) : Except FxError Decimal := do
  if source_currency = target_currency then
    return Decimal.ONE
  let r_from ← t.get_monthly_usd_rate source_currency date
  let r_to ← t.get_monthly_usd_rate target_currency date
  return r_to.div r_from

/-- Function `resolve_source_currency`: the money's explicit currency, else
the activity default. -/
def resolve_source_currency (money : Money)
    (activity_default : Option CurrencyCode) : Option CurrencyCode :=
  money.currency.or activity_default

/-- Function `convert_money`: resolve the source currency (else an
unsupported-currency error with the placeholder code `UNKNOWN`), require a
date (else `MissingDate`), ask the provider for a rate, and rewrite the
amount as `amount * rate` and the currency as the target, keeping the
value-date. -/
def convert_money (money : Money) (activity_default : Option CurrencyCode)
    (target : CurrencyCode) (value_date : Option NaiveDate)
    (fx : FxProvider) : Except FxError Money := do
  let src ←
    match resolve_source_currency money activity_default with
    | some c => Except.ok c
    | none => Except.error (FxError.UnsupportedCurrency (CurrencyCode.fromString "UNKNOWN"))
  let date ←
    match value_date with
    | some d => Except.ok d
    | none => Except.error FxError.MissingDate
  let rate ← fx src target date
  return ⟨money.amount.mul rate, some target, money.value_date⟩

/-- Body of the conversion loop of `convert_activity`, one transaction at a
time: the date falls back from the money's value-date to the transaction
date, and the converted money replaces the transaction's value. -/
def convert_tx (activity_default : Option CurrencyCode) (target : CurrencyCode)
    (fx : FxProvider) (tx : Transaction) : Except FxError Transaction := do
  let date := tx.value.value_date.or (some tx.date)
  let conv ← convert_money tx.value activity_default target date fx
  return { tx with value := conv }

/-- Function `convert_activity`: clone the activity, set its default
currency to the target, and convert each transaction's money in place; the
original activity's default currency is the one used for resolution. -/
def convert_activity (activity : Activity) (target : CurrencyCode)
    (fx : FxProvider) : Except FxError Activity := do
  let txs ← activity.transactions.mapM
    (convert_tx activity.default_currency target fx)
  return { activity with default_currency := some target, transactions := txs }

/-- C8: `convert_money` resolves the effective source currency as the
money's explicit currency, else the activity default, else fails with the
unsupported-currency error; fails with `MissingDate` when no date is
supplied; and otherwise returns the money with amount multiplied by the
provider's rate and currency set to the target (keeping the value-date).
`FxTable::get_rate` with source equal to target returns rate 1 with no table
lookup — for any table, including one with no entry for that currency. -/
theorem C8_convert_money_behaviour :
    (∀ (money : Money) (ad : Option CurrencyCode) (target : CurrencyCode)
        (vd : Option NaiveDate) (fx : FxProvider),
      resolve_source_currency money ad = money.currency.or ad ∧
      (money.currency = none → ad = none →
        convert_money money ad target vd fx =
          .error (.UnsupportedCurrency (CurrencyCode.fromString "UNKNOWN"))) ∧
      (∀ src : CurrencyCode, resolve_source_currency money ad = some src → vd = none →
        convert_money money ad target vd fx = .error .MissingDate) ∧
      (∀ (src : CurrencyCode) (d : NaiveDate) (rate : Decimal),
        resolve_source_currency money ad = some src → vd = some d →
        fx src target d = .ok rate →
        convert_money money ad target vd fx =
          .ok ⟨money.amount.mul rate, some target, money.value_date⟩)) ∧
    (∀ (t : FxTable) (c : CurrencyCode) (d : NaiveDate),
      t.get_rate c c d = .ok Decimal.ONE) := by
  refine ⟨fun money ad target vd fx => ⟨rfl, ?_, ?_, ?_⟩, fun t c d => ?_⟩
  · intro h1 h2
    simp [convert_money, resolve_source_currency, h1, h2, Option.or,
          except_error_bind, except_ok_bind]
  · intro src hsrc hvd
    subst hvd
    simp [convert_money, hsrc, except_ok_bind, except_error_bind]
  · intro src d rate hsrc hvd hrate
    subst hvd
    simp [convert_money, hsrc, hrate, except_ok_bind]
  · simp [FxTable.get_rate, except_pure]

/-- C8 witness: the success branch applied to concrete money in EUR with a
constant provider of rate 2, and the same-currency branch applied to the
empty table. -/
theorem C8_convert_money_behaviour_witness :
    convert_money ⟨⟨5000, 2⟩, some ⟨"EUR"⟩, none⟩ none ⟨"USD"⟩ (some ⟨2023, 5, 1⟩)
        (fun _ _ _ => .ok ⟨2, 0⟩) = .ok ⟨⟨10000, 2⟩, some ⟨"USD"⟩, none⟩ ∧
    FxTable.get_rate ⟨[]⟩ ⟨"EUR"⟩ ⟨"EUR"⟩ ⟨2023, 5, 1⟩ = .ok Decimal.ONE := by
  constructor
  · have h :=
      ((C8_convert_money_behaviour.1 ⟨⟨5000, 2⟩, some ⟨"EUR"⟩, none⟩ none ⟨"USD"⟩
          (some ⟨2023, 5, 1⟩) (fun _ _ _ => .ok ⟨2, 0⟩)).2.2.2) ⟨"EUR"⟩ ⟨2023, 5, 1⟩ ⟨2, 0⟩
        rfl rfl rfl
    exact h.trans (by decide)
  · exact C8_convert_money_behaviour.2 ⟨[]⟩ ⟨"EUR"⟩ ⟨2023, 5, 1⟩

/-- Success of `convert_money` always yields a money whose currency is the
target and whose value-date is the input money's value-date. -/
theorem convert_money_ok_shape (money : Money) (ad : Option CurrencyCode)
    (target : CurrencyCode) (vd : Option NaiveDate) (fx : FxProvider) (m : Money)
    (h : convert_money money ad target vd fx = .ok m) :
    m.currency = some target ∧ m.value_date = money.value_date := by
  cases hr : resolve_source_currency money ad with
  | none =>
    simp [convert_money, hr, except_error_bind, except_ok_bind, except_pure] at h
  | some src =>
    cases vd with
    | none =>
      simp [convert_money, hr, except_error_bind, except_ok_bind, except_pure] at h
    | some d =>
      cases hf : fx src target d with
      | error e =>
        simp [convert_money, hr, hf, except_error_bind, except_ok_bind, except_pure] at h
      | ok rate =>
        have hcm : convert_money money ad target (some d) fx =
            .ok ⟨money.amount.mul rate, some target, money.value_date⟩ := by
          simp [convert_money, hr, hf, except_ok_bind, except_pure]
        rw [hcm] at h
        cases h
        exact ⟨rfl, rfl⟩

/-- Success of `mapM` over `Except` relates inputs and outputs pointwise. -/
theorem mapM_ok_forall₂ {ε α β : Type} (f : α → Except ε β) :
    ∀ (l : List α) (l' : List β), l.mapM f = .ok l' →
      List.Forall₂ (fun x y => f x = .ok y) l l' := by
  intro l
  induction l with
  | nil =>
    intro l' h
    rw [List.mapM_nil] at h
    cases h
    exact .nil
  | cons x xs ih =>
    intro l' h
    rw [List.mapM_cons] at h
    cases hx : f x with
    | error e => rw [hx] at h; simp [except_error_bind] at h
    | ok y =>
      rw [hx, except_ok_bind] at h
      cases hys : xs.mapM f with
      | error e => rw [hys] at h; simp [except_error_bind] at h
      | ok ys =>
        rw [hys, except_ok_bind] at h
        cases h
        exact .cons hx (ih ys hys)

/-- Success of the per-transaction conversion keeps every transaction field
except the money, whose value-date is kept and whose currency becomes the
target. -/
theorem convert_tx_ok_shape (ad : Option CurrencyCode) (target : CurrencyCode)
    (fx : FxProvider) (tx tx' : Transaction)
    (h : convert_tx ad target fx tx = .ok tx') :
    tx'.tx_type = tx.tx_type ∧ tx'.date = tx.date ∧
    tx'.provider_org = tx.provider_org ∧ tx'.receiver_org = tx.receiver_org ∧
    tx'.currency_hint = tx.currency_hint ∧
    tx'.value.value_date = tx.value.value_date ∧
    tx'.value.currency = some target := by
  cases hcv : convert_money tx.value ad target (tx.value.value_date.or (some tx.date)) fx with
  | error e => simp [convert_tx, hcv, except_error_bind] at h
  | ok conv =>
    have hct : convert_tx ad target fx tx = .ok { tx with value := conv } := by
      simp [convert_tx, hcv, except_ok_bind, except_pure]
    rw [hct] at h
    cases h
    obtain ⟨hc, hv⟩ := convert_money_ok_shape _ _ _ _ _ _ hcv
    exact ⟨rfl, rfl, rfl, rfl, rfl, hv, hc⟩

/-- C10: when `convert_activity` succeeds, the result keeps the input's
identifier, reporting organisation and start/end dates, has the same number
of transactions in the same order, and each output transaction keeps the
input's type, date, organisations, currency hint and money value-date, with
only the money's amount and currency rewritten (the currency to the target)
and the activity default currency set to the target. The embedding is pure,
mirroring that the source borrows the input activity immutably and clones
it, so the input itself is unmodified. -/
theorem C10_convert_activity_frame (a : Activity) (target : CurrencyCode)
    (fx : FxProvider) (out : Activity)
    (h : convert_activity a target fx = .ok out) :
    out.iati_identifier = a.iati_identifier ∧
    out.reporting_org = a.reporting_org ∧
    out.activity_start = a.activity_start ∧
    out.activity_end = a.activity_end ∧
    out.default_currency = some target ∧
    out.transactions.length = a.transactions.length ∧
    ∀ (i : Nat) (hi : i < a.transactions.length) (ho : i < out.transactions.length),
      (out.transactions.get ⟨i, ho⟩).tx_type = (a.transactions.get ⟨i, hi⟩).tx_type ∧
      (out.transactions.get ⟨i, ho⟩).date = (a.transactions.get ⟨i, hi⟩).date ∧
      (out.transactions.get ⟨i, ho⟩).provider_org = (a.transactions.get ⟨i, hi⟩).provider_org ∧
      (out.transactions.get ⟨i, ho⟩).receiver_org = (a.transactions.get ⟨i, hi⟩).receiver_org ∧
      (out.transactions.get ⟨i, ho⟩).currency_hint = (a.transactions.get ⟨i, hi⟩).currency_hint ∧
      (out.transactions.get ⟨i, ho⟩).value.value_date =
        (a.transactions.get ⟨i, hi⟩).value.value_date ∧
      (out.transactions.get ⟨i, ho⟩).value.currency = some target := by
  cases hm : a.transactions.mapM (convert_tx a.default_currency target fx) with
  | error e =>
    unfold convert_activity at h
    rw [hm, except_error_bind] at h
    exact Except.noConfusion h
  | ok txs =>
    unfold convert_activity at h
    rw [hm, except_ok_bind, except_pure] at h
    cases h
    have hf2 := mapM_ok_forall₂ _ a.transactions txs hm
    rw [List.forall₂_iff_get] at hf2
    obtain ⟨hlen, hget⟩ := hf2
    refine ⟨rfl, rfl, rfl, rfl, rfl, hlen.symm, ?_⟩
    intro i hi ho
    obtain ⟨h1, h2, h3, h4, h5, h6, h7⟩ :=
      convert_tx_ok_shape a.default_currency target fx _ _ (hget i hi ho)
    exact ⟨h1, h2, h3, h4, h5, h6, h7⟩

/-- Sample activity for the conversion frame witness. -/
def cAct : Activity :=
  ⟨"ACT-FX", some ⟨"USD"⟩,
    [⟨TxType.Disbursement, ⟨2023, 5, 1⟩, ⟨⟨5000, 2⟩, some ⟨"EUR"⟩, none⟩,
      some ⟨some "AAA-111", some "Donor Org"⟩, none, none⟩],
    none, none, none⟩

/-- Constant provider of rate 3 for the conversion frame witness. -/
def cFx : FxProvider := fun _ _ _ => .ok ⟨3, 0⟩

/-- Converted activity for the conversion frame witness. -/
def cOut : Activity :=
  ⟨"ACT-FX", some ⟨"GBP"⟩,
    [⟨TxType.Disbursement, ⟨2023, 5, 1⟩, ⟨⟨15000, 2⟩, some ⟨"GBP"⟩, none⟩,
      some ⟨some "AAA-111", some "Donor Org"⟩, none, none⟩],
    none, none, none⟩

/-- C10 witness: the frame theorem applied to the sample conversion. -/
theorem C10_convert_activity_frame_witness :
    cOut.iati_identifier = cAct.iati_identifier ∧
    cOut.default_currency = some ⟨"GBP"⟩ ∧
    cOut.transactions.length = cAct.transactions.length := by
  have h := C10_convert_activity_frame cAct ⟨"GBP"⟩ cFx cOut (by decide)
  exact ⟨h.1, h.2.2.2.2.1, h.2.2.2.2.2.1⟩

/-- Error of the aggregation crate (`iati_transform::TransformError`). -/
inductive TransformError
  | MissingCurrency
deriving DecidableEq, Repr

/-- Currency policy (`iati_transform::FxCurrency`): keep each transaction's
native currency, or relabel everything to a fixed target at a placeholder
1:1 rate. -/
inductive FxCurrency
  | Native
  | Fixed (target : CurrencyCode)
deriving DecidableEq, Repr

/-- Sums keyed by transaction type and currency
(`iati_transform::ByTypeAndCurrency`); the nested `BTreeMap`s are modelled
as function maps, observed through `total_for` exactly as the source's
`get` chain observes them. -/
structure ByTypeAndCurrency where
  sums : TxType → Option (CurrencyCode → Option Decimal)

/-- Value `ByTypeAndCurrency::default()`: the empty map. -/
def ByTypeAndCurrency.empty : ByTypeAndCurrency := ⟨fun _ => none⟩

/-- Method `ByTypeAndCurrency::add`: materialize the row for the type
(`entry(..).or_default()`), then add to the existing cell
(`and_modify(|x| *x += amount)`) or insert the amount (`or_insert`). -/
def ByTypeAndCurrency.add (m : ByTypeAndCurrency) (tx_type : TxType)
    (currency : CurrencyCode) (amount : Decimal) : ByTypeAndCurrency :=
  let inner := (m.sums tx_type).getD (fun _ => none)
  let inner' := fun c =>
    if c = currency then
      some (match inner currency with
            | some x => x.add amount
            | none => amount)
    else inner c
  ⟨fun t => if t = tx_type then some inner' else m.sums t⟩

/-- Method `ByTypeAndCurrency::total_for`: the cell for a type and currency,
if both keys are present. -/
def ByTypeAndCurrency.total_for (m : ByTypeAndCurrency) (tx_type : TxType)
    (currency : CurrencyCode) : Option Decimal :=
  match m.sums tx_type with
  | some inner => inner currency
  | none => none

/-- Function `resolve_currency`: the transaction's value currency, else the
activity default, else `MissingCurrency`. -/
def resolve_currency (act : Activity) (currency : Option CurrencyCode) :
    Except TransformError CurrencyCode :=
  match currency.or act.default_currency with
  | some c => .ok c
  | none => .error .MissingCurrency

/-- Function `apply_fx`: keep the amount; the currency stays native or is
relabelled to the fixed target (placeholder 1:1 rate). -/
def apply_fx (_value_date : Option NaiveDate) (amount : Decimal)
    (src : CurrencyCode) (fx : FxCurrency) : Decimal × CurrencyCode :=
  match fx with
  | .Native => (amount, src)
  | .Fixed target => (amount, target)

/-- Function `aggregate_by_type`: for every transaction of every activity,
resolve the currency (skipping the transaction if it cannot be resolved),
apply the policy, and add the amount under its type and currency. -/
def aggregate_by_type (activities : List Activity) (fx : FxCurrency) :
    ByTypeAndCurrency :=
  activities.foldl (fun out act =>
    act.transactions.foldl (fun out tx =>
      match resolve_currency act tx.value.currency with
      | .error _ => out
      | .ok src_cur =>
        let p := apply_fx tx.value.value_date tx.value.amount src_cur fx
        out.add tx.tx_type p.2 p.1) out)
    ByTypeAndCurrency.empty

/-- Sums keyed by year, transaction type and currency
(`iati_transform::ByYearTypeAndCurrency`), modelled like
`ByTypeAndCurrency`. -/
structure ByYearTypeAndCurrency where
  sums : Int → Option (TxType → Option (CurrencyCode → Option Decimal))

/-- Value `ByYearTypeAndCurrency::default()`: the empty map. -/
def ByYearTypeAndCurrency.empty : ByYearTypeAndCurrency := ⟨fun _ => none⟩

/-- Method `ByYearTypeAndCurrency::add`, one nesting level deeper than
`ByTypeAndCurrency::add`. -/
def ByYearTypeAndCurrency.add (m : ByYearTypeAndCurrency) (year : Int)
    (tx_type : TxType) (currency : CurrencyCode) (amount : Decimal) :
    ByYearTypeAndCurrency :=
  let mid := (m.sums year).getD (fun _ => none)
  let inner := (mid tx_type).getD (fun _ => none)
  let inner' := fun c =>
    if c = currency then
      some (match inner currency with
            | some x => x.add amount
            | none => amount)
    else inner c
  let mid' := fun t => if t = tx_type then some inner' else mid t
  ⟨fun y => if y = year then some mid' else m.sums y⟩

/-- Observer of the year-keyed sums, the `get` chain the source's tests
use: the cell for a year, type and currency, if all keys are present. -/
def ByYearTypeAndCurrency.total_for (m : ByYearTypeAndCurrency) (year : Int)
    (tx_type : TxType) (currency : CurrencyCode) : Option Decimal :=
  match m.sums year with
  | some mid =>
    match mid tx_type with
    | some inner => inner currency
    | none => none
  | none => none

/-- Function `aggregate_by_year_and_type`: like `aggregate_by_type`, further
keyed by the transaction date's year. -/
def aggregate_by_year_and_type (activities : List Activity) (fx : FxCurrency) :
    ByYearTypeAndCurrency :=
  activities.foldl (fun out act =>
    act.transactions.foldl (fun out tx =>
      match resolve_currency act tx.value.currency with
      | .error _ => out
      | .ok src_cur =>
        let p := apply_fx tx.value.value_date tx.value.amount src_cur fx
        out.add tx.date.year tx.tx_type p.2 p.1) out)
    ByYearTypeAndCurrency.empty

/-- Keyed contribution of one transaction under a policy: none when its
currency cannot be resolved, else its amount under its type and resolved
(or fixed-target) currency. -/
def keyedAmount (fx : FxCurrency) (act : Activity) (tx : Transaction) :
    Option ((TxType × CurrencyCode) × Decimal) :=
  match resolve_currency act tx.value.currency with
  | .error _ => none
  | .ok src_cur =>
    let p := apply_fx tx.value.value_date tx.value.amount src_cur fx
    some ((tx.tx_type, p.2), p.1)

/-- Keyed contributions of all transactions of all activities, in order;
unresolvable transactions are dropped. -/
def txKeyedAmounts (activities : List Activity) (fx : FxCurrency) :
    List ((TxType × CurrencyCode) × Decimal) :=
  activities.flatMap (fun act => act.transactions.filterMap (keyedAmount fx act))

/-- Year-keyed contribution of one transaction (year from the transaction's
own date). -/
def yearKeyedAmount (fx : FxCurrency) (act : Activity) (tx : Transaction) :
    Option ((Int × TxType × CurrencyCode) × Decimal) :=
  match resolve_currency act tx.value.currency with
  | .error _ => none
  | .ok src_cur =>
    let p := apply_fx tx.value.value_date tx.value.amount src_cur fx
    some ((tx.date.year, tx.tx_type, p.2), p.1)

/-- Year-keyed contributions of all transactions of all activities. -/
def txYearKeyedAmounts (activities : List Activity) (fx : FxCurrency) :
    List ((Int × TxType × CurrencyCode) × Decimal) :=
  activities.flatMap (fun act => act.transactions.filterMap (yearKeyedAmount fx act))

/-- Running sum of the amounts listed under one key, in list order: absent
when the key never occurs, else the left fold of decimal addition over its
amounts. -/
def sumAt {K : Type} [DecidableEq K] (k : K) (l : List (K × Decimal)) :
    Option Decimal :=
  l.foldl (fun acc kv =>
    if kv.1 = k then
      some (match acc with
            | some x => x.add kv.2
            | none => kv.2)
    else acc) none

/-- Effect of `ByTypeAndCurrency::add` on one observed cell. -/
theorem total_for_add (m : ByTypeAndCurrency) (t : TxType) (c : CurrencyCode)
    (a : Decimal) (t' : TxType) (c' : CurrencyCode) :
    (m.add t c a).total_for t' c' =
      if (t, c) = (t', c') then
        some (match m.total_for t' c' with
              | some x => x.add a
              | none => a)
      else m.total_for t' c' := by
  by_cases ht : t = t'
  · subst ht
    by_cases hc : c = c'
    · subst hc
      cases hs : m.sums t with
      | some inner => simp [ByTypeAndCurrency.add, ByTypeAndCurrency.total_for, hs]
      | none => simp [ByTypeAndCurrency.add, ByTypeAndCurrency.total_for, hs]
    · have hne : ¬((t, c) = (t, c')) := by simp [hc]
      have hc' : ¬(c' = c) := fun h => hc h.symm
      cases hs : m.sums t with
      | some inner =>
        simp [ByTypeAndCurrency.add, ByTypeAndCurrency.total_for, hs, hne, hc']
      | none =>
        simp [ByTypeAndCurrency.add, ByTypeAndCurrency.total_for, hs, hne, hc']
  · have hne : ¬((t, c) = (t', c')) := by simp [ht]
    have ht' : ¬(t' = t) := fun h => ht h.symm
    simp [ByTypeAndCurrency.add, ByTypeAndCurrency.total_for, hne, ht']

/-- Effect of `ByYearTypeAndCurrency::add` on one observed cell. -/
theorem total_for_add_year (m : ByYearTypeAndCurrency) (y : Int) (t : TxType)
    (c : CurrencyCode) (a : Decimal) (y' : Int) (t' : TxType) (c' : CurrencyCode) :
    (m.add y t c a).total_for y' t' c' =
      if (y, t, c) = (y', t', c') then
        some (match m.total_for y' t' c' with
              | some x => x.add a
              | none => a)
      else m.total_for y' t' c' := by
  by_cases hy : y = y'
  · subst hy
    by_cases ht : t = t'
    · subst ht
      by_cases hc : c = c'
      · subst hc
        cases hs : m.sums y with
        | some mid0 =>
          cases hm0 : mid0 t with
          | some inner0 =>
            simp [ByYearTypeAndCurrency.add, ByYearTypeAndCurrency.total_for, hs, hm0]
          | none =>
            simp [ByYearTypeAndCurrency.add, ByYearTypeAndCurrency.total_for, hs, hm0]
        | none =>
          simp [ByYearTypeAndCurrency.add, ByYearTypeAndCurrency.total_for, hs]
      · have hne : ¬((y, t, c) = (y, t, c')) := by simp [hc]
        have hc' : ¬(c' = c) := fun h => hc h.symm
        cases hs : m.sums y with
        | some mid0 =>
          cases hm0 : mid0 t with
          | some inner0 =>
            simp [ByYearTypeAndCurrency.add, ByYearTypeAndCurrency.total_for, hs, hm0,
                  hne, hc']
          | none =>
            simp [ByYearTypeAndCurrency.add, ByYearTypeAndCurrency.total_for, hs, hm0,
                  hne, hc']
        | none =>
          simp [ByYearTypeAndCurrency.add, ByYearTypeAndCurrency.total_for, hs, hne, hc']
    · have hne : ¬((y, t, c) = (y, t', c')) := by simp [ht]
      have ht' : ¬(t' = t) := fun h => ht h.symm
      cases hs : m.sums y with
      | some mid0 =>
        simp [ByYearTypeAndCurrency.add, ByYearTypeAndCurrency.total_for, hs, hne, ht']
      | none =>
        simp [ByYearTypeAndCurrency.add, ByYearTypeAndCurrency.total_for, hs, hne, ht']
  · have hne : ¬((y, t, c) = (y', t', c')) := by simp [hy]
    have hy' : ¬(y' = y) := fun h => hy h.symm
    simp [ByYearTypeAndCurrency.add, ByYearTypeAndCurrency.total_for, hne, hy']

/-- One observed cell of a left fold of `ByTypeAndCurrency::add` is the
running reduction of the contributions carrying that cell's key. -/
theorem foldl_add_total (l : List ((TxType × CurrencyCode) × Decimal)) :
    ∀ (m : ByTypeAndCurrency) (t : TxType) (c : CurrencyCode),
    ((l.foldl (fun out kv => out.add kv.1.1 kv.1.2 kv.2) m).total_for t c) =
      l.foldl (fun acc kv =>
        if kv.1 = (t, c) then
          some (match acc with
                | some x => x.add kv.2
                | none => kv.2)
        else acc) (m.total_for t c) := by
  induction l with
  | nil => intro m t c; rfl
  | cons kv rest ih =>
    intro m t c
    rw [List.foldl_cons, List.foldl_cons, ih, total_for_add]

/-- One observed cell of a left fold of `ByYearTypeAndCurrency::add` is the
running reduction of the contributions carrying that cell's key. -/
theorem foldl_add_total_year (l : List ((Int × TxType × CurrencyCode) × Decimal)) :
    ∀ (m : ByYearTypeAndCurrency) (y : Int) (t : TxType) (c : CurrencyCode),
    ((l.foldl (fun out kv => out.add kv.1.1 kv.1.2.1 kv.1.2.2 kv.2) m).total_for y t c) =
      l.foldl (fun acc kv =>
        if kv.1 = (y, t, c) then
          some (match acc with
                | some x => x.add kv.2
                | none => kv.2)
        else acc) (m.total_for y t c) := by
  induction l with
  | nil => intro m y t c; rfl
  | cons kv rest ih =>
    intro m y t c
    rw [List.foldl_cons, List.foldl_cons, ih, total_for_add_year]

/-- The inner transaction loop of `aggregate_by_type` equals folding `add`
over that activity's kept (resolvable) contributions. -/
theorem agg_inner_eq (fx : FxCurrency) (act : Activity) :
    ∀ (txs : List Transaction) (m : ByTypeAndCurrency),
    txs.foldl (fun out tx =>
      match resolve_currency act tx.value.currency with
      | .error _ => out
      | .ok src_cur =>
        let p := apply_fx tx.value.value_date tx.value.amount src_cur fx
        out.add tx.tx_type p.2 p.1) m =
    (txs.filterMap (keyedAmount fx act)).foldl
      (fun out kv => out.add kv.1.1 kv.1.2 kv.2) m := by
  intro txs
  induction txs with
  | nil => intro m; rfl
  | cons tx rest ih =>
    intro m
    rw [List.foldl_cons, List.filterMap_cons]
    cases hr : resolve_currency act tx.value.currency with
    | error e => simp [keyedAmount, hr, ih]
    | ok src_cur => simp [keyedAmount, hr, ih]

/-- The whole double loop of `aggregate_by_type` equals folding `add` over
all kept contributions, in order. -/
theorem agg_outer_eq (fx : FxCurrency) :
    ∀ (acts : List Activity) (m : ByTypeAndCurrency),
    acts.foldl (fun out act =>
      act.transactions.foldl (fun out tx =>
        match resolve_currency act tx.value.currency with
        | .error _ => out
        | .ok src_cur =>
          let p := apply_fx tx.value.value_date tx.value.amount src_cur fx
          out.add tx.tx_type p.2 p.1) out) m =
    (txKeyedAmounts acts fx).foldl
      (fun out kv => out.add kv.1.1 kv.1.2 kv.2) m := by
  intro acts
  induction acts with
  | nil => intro m; rfl
  | cons act rest ih =>
    intro m
    simp only [List.foldl_cons]
    rw [agg_inner_eq fx act act.transactions m, ih]
    simp [txKeyedAmounts, List.foldl_append]

/-- The inner transaction loop of `aggregate_by_year_and_type` equals
folding `add` over that activity's kept year-keyed contributions. -/
theorem agg_inner_eq_year (fx : FxCurrency) (act : Activity) :
    ∀ (txs : List Transaction) (m : ByYearTypeAndCurrency),
    txs.foldl (fun out tx =>
      match resolve_currency act tx.value.currency with
      | .error _ => out
      | .ok src_cur =>
        let p := apply_fx tx.value.value_date tx.value.amount src_cur fx
        out.add tx.date.year tx.tx_type p.2 p.1) m =
    (txs.filterMap (yearKeyedAmount fx act)).foldl
      (fun out kv => out.add kv.1.1 kv.1.2.1 kv.1.2.2 kv.2) m := by
  intro txs
  induction txs with
  | nil => intro m; rfl
  | cons tx rest ih =>
    intro m
    rw [List.foldl_cons, List.filterMap_cons]
    cases hr : resolve_currency act tx.value.currency with
    | error e => simp [yearKeyedAmount, hr, ih]
    | ok src_cur => simp [yearKeyedAmount, hr, ih]

/-- The whole double loop of `aggregate_by_year_and_type` equals folding
`add` over all kept year-keyed contributions, in order. -/
theorem agg_outer_eq_year (fx : FxCurrency) :
    ∀ (acts : List Activity) (m : ByYearTypeAndCurrency),
    acts.foldl (fun out act =>
      act.transactions.foldl (fun out tx =>
        match resolve_currency act tx.value.currency with
        | .error _ => out
        | .ok src_cur =>
          let p := apply_fx tx.value.value_date tx.value.amount src_cur fx
          out.add tx.date.year tx.tx_type p.2 p.1) out) m =
    (txYearKeyedAmounts acts fx).foldl
      (fun out kv => out.add kv.1.1 kv.1.2.1 kv.1.2.2 kv.2) m := by
  intro acts
  induction acts with
  | nil => intro m; rfl
  | cons act rest ih =>
    intro m
    simp only [List.foldl_cons]
    rw [agg_inner_eq_year fx act act.transactions m, ih]
    simp [txYearKeyedAmounts, List.foldl_append]

/-- C9: aggregation never fails on unresolved currency: both aggregators are
total functions; every observed cell of `aggregate_by_type` (and of
`aggregate_by_year_and_type`) is exactly the running sum of the amounts of
the resolvable transactions keyed by that cell's transaction type and
resolved (or fixed-target) currency (and year), while transactions whose
currency cannot be resolved are dropped from the keyed contributions and so
contribute to no cell. -/
theorem C9_aggregation_skips_unresolved (activities : List Activity)
    (fx : FxCurrency) (t : TxType) (c : CurrencyCode) (y : Int) :
    (aggregate_by_type activities fx).total_for t c =
      sumAt (t, c) (txKeyedAmounts activities fx) ∧
    (aggregate_by_year_and_type activities fx).total_for y t c =
      sumAt (y, t, c) (txYearKeyedAmounts activities fx) := by
  constructor
  · unfold aggregate_by_type
    rw [agg_outer_eq fx activities ByTypeAndCurrency.empty, foldl_add_total]
    rfl
  · unfold aggregate_by_year_and_type
    rw [agg_outer_eq_year fx activities ByYearTypeAndCurrency.empty,
        foldl_add_total_year]
    rfl
